import Mathlib

/-!
Shallow embedding of `crates/bones_ecs/src/stage.rs`: the staged execution
scheduler (`SystemStages`, `SimpleSystemStage`, `StageLabel`, `CoreStage`).

Modelling conventions:
* `Ulid` is a 128-bit identifier; it is modelled as `Nat` (ids are only
  compared for equality and rendered as text; the 128-bit bound is stated
  where a claim needs it).
* A Rust `System` is opaque; its two hooks mutate the world (through interior
  mutability behind `&World`) and their own captured state (through
  `&mut self`).  Both effects are modelled as a state transition on an
  abstract state type `σ`, so `run` has type `σ → σ × Except ε Unit`
  (`SystemResult` with an abstract error type `ε`).
* `panic!` is modelled as `Except.error`, carrying the diagnostic string and
  the collection state at the abort point.
* The collection stores `Box<dyn SystemStage>`; the only implementation in
  the crate is `SimpleSystemStage`, so stages are modelled by that structure.
* `initialize` is rendered as `init` (`initialize_systems` as
  `init_systems`).
-/

set_option autoImplicit false

namespace Bones

/-- `Ulid`: a 128-bit stage identifier, modelled as `Nat`. -/
abbrev Ulid := Nat

/-- `SystemResult` = `Result<(), SystemError>` with abstract error type `ε`. -/
abbrev SystemResult (ε : Type) := Except ε Unit

/-- An opaque system: the two-phase contract (`initialize` hook rendered as
`init`, and `run`).  Effects on the world and on system-local state are a
transition on the abstract state `σ`. -/
structure System (σ ε : Type) where
  init : σ → σ
  run : σ → σ × SystemResult ε

/-- `SimpleSystemStage`: id, human-readable name, and the ordered list of
systems (source lines 92-102). -/
structure SimpleSystemStage (σ ε : Type) where
  id : Ulid
  name : String
  systems : List (System σ ε)

/-- A `StageLabel`: the trait exposes exactly `name()` and `id()`, so a label
is modelled by that pair. -/
structure StageLabel where
  name : String
  id : Ulid

/-- `SimpleSystemStage::new`: empty stage for the given label. -/
def SimpleSystemStage.new (σ ε : Type) (label : StageLabel) : SimpleSystemStage σ ε :=
  ⟨label.id, label.name, []⟩

/-- `SimpleSystemStage::add_system`: `self.systems.push(system)`. -/
def SimpleSystemStage.add_system {σ ε : Type} (st : SimpleSystemStage σ ε)
    (system : System σ ε) : SimpleSystemStage σ ε :=
  ⟨st.id, st.name, st.systems ++ [system]⟩

/-- The loop body of `SimpleSystemStage::run`:
`for system in &mut self.systems { system.run(world)?; } Ok(())`. -/
def runSystems {σ ε : Type} : List (System σ ε) → σ → σ × SystemResult ε
  | [], s => (s, Except.ok ())
  | sys :: rest, s =>
    match sys.run s with
    | (s1, Except.ok ()) => runSystems rest s1
    | (s1, Except.error e) => (s1, Except.error e)

/-- `SimpleSystemStage::run`. -/
def SimpleSystemStage.run {σ ε : Type} (st : SimpleSystemStage σ ε) (s : σ) :
    σ × SystemResult ε :=
  runSystems st.systems s

/-- `SimpleSystemStage::initialize`:
`for system in &mut self.systems { system.initialize(world); }`. -/
def SimpleSystemStage.init {σ ε : Type} (st : SimpleSystemStage σ ε) (s : σ) : σ :=
  st.systems.foldl (fun s sys => sys.init s) s

/-- `SystemStages`: the ordered collection of stages. -/
structure SystemStages (σ ε : Type) where
  stages : List (SimpleSystemStage σ ε)

/-- `SystemStages::initialize_systems`:
`for stage in &mut self.stages { stage.initialize(world); }`. -/
def SystemStages.init_systems {σ ε : Type} (ss : SystemStages σ ε) (s : σ) : σ :=
  ss.stages.foldl (fun s st => st.init s) s

/-- The loop body of `SystemStages::run`:
`for stage in &mut self.stages { stage.run(world)?; } Ok(())`. -/
def runStages {σ ε : Type} : List (SimpleSystemStage σ ε) → σ → σ × SystemResult ε
  | [], s => (s, Except.ok ())
  | st :: rest, s =>
    match st.run s with
    | (s1, Except.ok ()) => runStages rest s1
    | (s1, Except.error e) => (s1, Except.error e)

/-- `SystemStages::run`. -/
def SystemStages.run {σ ε : Type} (ss : SystemStages σ ε) (s : σ) :
    σ × SystemResult ε :=
  runStages ss.stages s

/-- `CoreStage`: the five built-in phases. -/
inductive CoreStage
  | First
  | PreUpdate
  | Update
  | PostUpdate
  | Last

/-- `CoreStage::name` (source lines 167-176). -/
def CoreStage.name : CoreStage → String
  | .First => "First"
  | .PreUpdate => "PreUpdate"
  | .Update => "Update"
  | .PostUpdate => "PostUpdate"
  | .Last => "Last"

/-- `CoreStage::id`: the five hard-coded `Ulid` constants (lines 178-186). -/
def CoreStage.id : CoreStage → Ulid
  | .First => 2021715391084198804812356024998495966
  | .PreUpdate => 2021715401330719559452824437611089988
  | .Update => 2021715410160177201728645950400543948
  | .PostUpdate => 2021715423103233646561968734173322317
  | .Last => 2021715433398666914977687392909851554

/-- A `CoreStage` viewed through the `StageLabel` trait. -/
def CoreStage.label (c : CoreStage) : StageLabel :=
  ⟨c.name, c.id⟩

/-- `SystemStages::with_core_stages` (lines 34-44). -/
def SystemStages.with_core_stages (σ ε : Type) : SystemStages σ ε :=
  ⟨[SimpleSystemStage.new σ ε CoreStage.First.label,
    SimpleSystemStage.new σ ε CoreStage.PreUpdate.label,
    SimpleSystemStage.new σ ε CoreStage.Update.label,
    SimpleSystemStage.new σ ε CoreStage.PostUpdate.label,
    SimpleSystemStage.new σ ε CoreStage.Last.label]⟩

/-- The lookup loop of `add_system_to_stage` (lines 54-60):
`let mut stage = None; for st in &mut self.stages { if st.id() == id { stage = Some(st) } }`.
The accumulator is the index of the stage currently held, `i` the index of
the next element. -/
def stageScanAux {σ ε : Type} (sid : Ulid) :
    Nat → Option Nat → List (SimpleSystemStage σ ε) → Option Nat
  | _, acc, [] => acc
  | i, acc, st :: rest =>
    stageScanAux sid (i + 1) (if st.id = sid then some i else acc) rest

/-- Result of the lookup loop over the whole stage list. -/
def stageScan {σ ε : Type} (sid : Ulid) (stages : List (SimpleSystemStage σ ε)) :
    Option Nat :=
  stageScanAux sid 0 none stages

/-- Replace the element at one index of a list, leaving the rest unchanged
(the effect of `add_system` through the held `&mut` reference). -/
def modifyIdx {α : Type} : List α → Nat → (α → α) → List α
  | [], _, _ => []
  | x :: xs, 0, f => f x :: xs
  | x :: xs, n + 1, f => x :: modifyIdx xs n f

/-- The `panic!` diagnostic of `add_system_to_stage` (line 63), with the id
rendered in decimal. -/
def missingStageMsg (name : String) (id : Ulid) : String :=
  "Stage with label `" ++ name ++ "` ( " ++ toString id ++ " ) doesn\x27t exist."

/-- `SystemStages::add_system_to_stage` (lines 47-69).  The `panic!` branch is
modelled as `Except.error` carrying the diagnostic together with the
collection state at the abort point. -/
def SystemStages.add_system_to_stage {σ ε : Type} (ss : SystemStages σ ε)
    (label : StageLabel) (system : System σ ε) :
    Except (String × SystemStages σ ε) (SystemStages σ ε) :=
  match stageScan label.id ss.stages with
  | none => Except.error (missingStageMsg label.name label.id, ss)
  | some i => Except.ok ⟨modifyIdx ss.stages i (fun st => st.add_system system)⟩

/-- An instrumented system over a trace state: it appends its tag to the
trace in both hooks and always succeeds. -/
def probe (ε : Type) (t : Nat) : System (List Nat) ε :=
  ⟨fun s => s ++ [t], fun s => (s ++ [t], Except.ok ())⟩

/-- An instrumented system that appends its tag and then fails with `e`. -/
def failProbe {ε : Type} (t : Nat) (e : ε) : System (List Nat) ε :=
  ⟨fun s => s ++ [t], fun s => (s ++ [t], Except.error e)⟩

/-- The state transition obtained by applying every system of every stage,
in stage order and insertion order (the effect of one failure-free tick). -/
def allSystemsFold {σ ε : Type} (ss : SystemStages σ ε) (s : σ) : σ :=
  ss.stages.foldl (fun s st => st.systems.foldl (fun s sys => (sys.run s).1) s) s

/-- Repeated (chained) `add_system_to_stage` calls with one label; when the
label matches no stage the Rust program would panic, so that branch keeps
the collection unchanged here (it is never reached in the theorems below). -/
def addAllToStage {σ ε : Type} (ss : SystemStages σ ε) (label : StageLabel)
    (syss : List (System σ ε)) : SystemStages σ ε :=
  syss.foldl
    (fun ss sys =>
      match ss.add_system_to_stage label sys with
      | Except.ok ss2 => ss2
      | Except.error _ => ss)
    ss

/-! ### Basic lemmas about the run loops -/

theorem runSystems_append_ok {σ ε : Type} (xs : List (System σ ε)) :
    ∀ (ys : List (System σ ε)) (s s1 : σ),
      runSystems xs s = (s1, Except.ok ()) →
      runSystems (xs ++ ys) s = runSystems ys s1 := by
  induction xs with
  | nil =>
    intro ys s s1 h
    simp only [runSystems] at h
    cases h
    rfl
  | cons sys rest ih =>
    intro ys s s1 h
    simp only [runSystems, List.cons_append] at h ⊢
    rcases hr : sys.run s with ⟨s2, r⟩
    rw [hr] at h
    cases r with
    | ok u =>
      cases u
      exact ih ys s2 s1 h
    | error e =>
      exfalso
      have h2 : (Except.error e : SystemResult ε) = Except.ok () := congrArg Prod.snd h
      cases h2

theorem runStages_append_ok {σ ε : Type} (xs : List (SimpleSystemStage σ ε)) :
    ∀ (ys : List (SimpleSystemStage σ ε)) (s s1 : σ),
      runStages xs s = (s1, Except.ok ()) →
      runStages (xs ++ ys) s = runStages ys s1 := by
  induction xs with
  | nil =>
    intro ys s s1 h
    simp only [runStages] at h
    cases h
    rfl
  | cons st rest ih =>
    intro ys s s1 h
    simp only [runStages, List.cons_append] at h ⊢
    rcases hr : st.run s with ⟨s2, r⟩
    rw [hr] at h
    cases r with
    | ok u =>
      cases u
      exact ih ys s2 s1 h
    | error e =>
      exfalso
      have h2 : (Except.error e : SystemResult ε) = Except.ok () := congrArg Prod.snd h
      cases h2

theorem runStages_all_empty {σ ε : Type} (l : List (SimpleSystemStage σ ε)) :
    ∀ s : σ, (∀ st ∈ l, st.systems = []) → runStages l s = (s, Except.ok ()) := by
  induction l with
  | nil => intro s _; rfl
  | cons st rest ih =>
    intro s h
    have hst : st.systems = [] := h st (List.mem_cons_self st rest)
    have hrun : st.run s = (s, Except.ok ()) := by
      unfold SimpleSystemStage.run
      rw [hst]
      rfl
    simp only [runStages, hrun]
    exact ih s fun st2 h2 => h st2 (List.mem_cons_of_mem st h2)

theorem initFold_all_empty {σ ε : Type} (l : List (SimpleSystemStage σ ε)) :
    ∀ s : σ, (∀ st ∈ l, st.systems = []) →
      l.foldl (fun s st => st.init s) s = s := by
  induction l with
  | nil => intro s _; rfl
  | cons st rest ih =>
    intro s h
    have hst : st.systems = [] := h st (List.mem_cons_self st rest)
    have hinit : st.init s = s := by
      unfold SimpleSystemStage.init
      rw [hst]
      rfl
    simp only [List.foldl_cons, hinit]
    exact ih s fun st2 h2 => h st2 (List.mem_cons_of_mem st h2)

/-! ### Lemmas about the lookup scan and the in-place update -/

theorem stageScanAux_append {σ ε : Type} (sid : Ulid)
    (xs : List (SimpleSystemStage σ ε)) :
    ∀ (ys : List (SimpleSystemStage σ ε)) (i : Nat) (acc : Option Nat),
      stageScanAux sid i acc (xs ++ ys)
        = stageScanAux sid (i + xs.length) (stageScanAux sid i acc xs) ys := by
  induction xs with
  | nil => intro ys i acc; simp [stageScanAux]
  | cons st rest ih =>
    intro ys i acc
    simp only [List.cons_append, stageScanAux, List.length_cons, List.append_eq]
    rw [ih]
    congr 1
    omega

theorem stageScanAux_no_match {σ ε : Type} (sid : Ulid)
    (xs : List (SimpleSystemStage σ ε)) :
    ∀ (i : Nat) (acc : Option Nat), (∀ st ∈ xs, st.id ≠ sid) →
      stageScanAux sid i acc xs = acc := by
  induction xs with
  | nil => intro i acc _; rfl
  | cons st rest ih =>
    intro i acc h
    have hst : st.id ≠ sid := h st (List.mem_cons_self st rest)
    simp only [stageScanAux, if_neg hst]
    exact ih (i + 1) acc fun st2 h2 => h st2 (List.mem_cons_of_mem st h2)

theorem stageScanAux_some {σ ε : Type} (sid : Ulid)
    (xs : List (SimpleSystemStage σ ε)) :
    ∀ (i k : Nat), ∃ j, stageScanAux sid i (some k) xs = some j := by
  induction xs with
  | nil => intro i k; exact ⟨k, rfl⟩
  | cons st rest ih =>
    intro i k
    simp only [stageScanAux]
    by_cases hst : st.id = sid
    · rw [if_pos hst]; exact ih (i + 1) i
    · rw [if_neg hst]; exact ih (i + 1) k

theorem stageScanAux_bound {σ ε : Type} (sid : Ulid)
    (xs : List (SimpleSystemStage σ ε)) :
    ∀ (i : Nat) (acc : Option Nat) (j : Nat),
      stageScanAux sid i acc xs = some j →
      acc = some j ∨ (i ≤ j ∧ j < i + xs.length) := by
  induction xs with
  | nil => intro i acc j h; exact Or.inl h
  | cons st rest ih =>
    intro i acc j h
    simp only [stageScanAux] at h
    rcases ih (i + 1) (if st.id = sid then some i else acc) j h with h2 | h2
    · by_cases hst : st.id = sid
      · rw [if_pos hst] at h2
        cases h2
        right
        simp only [List.length_cons]
        omega
      · rw [if_neg hst] at h2
        exact Or.inl h2
    · right
      simp only [List.length_cons]
      omega

theorem stageScan_none {σ ε : Type} (sid : Ulid)
    (stages : List (SimpleSystemStage σ ε)) (h : ∀ st ∈ stages, st.id ≠ sid) :
    stageScan sid stages = none :=
  stageScanAux_no_match sid stages 0 none h

theorem stageScan_of_mem {σ ε : Type} (sid : Ulid)
    (stages : List (SimpleSystemStage σ ε)) :
    (∃ st ∈ stages, st.id = sid) → ∃ j, stageScan sid stages = some j := by
  rintro ⟨st, hmem, hid⟩
  rcases List.append_of_mem hmem with ⟨xs, ys, rfl⟩
  unfold stageScan
  rw [stageScanAux_append]
  simp only [stageScanAux, if_pos hid]
  exact stageScanAux_some sid ys (0 + xs.length + 1) (0 + xs.length)

theorem stageScan_last_match {σ ε : Type} (sid : Ulid)
    (xs ys : List (SimpleSystemStage σ ε)) (st : SimpleSystemStage σ ε)
    (hid : st.id = sid) (hys : ∀ st2 ∈ ys, st2.id ≠ sid) :
    stageScan sid (xs ++ st :: ys) = some xs.length := by
  unfold stageScan
  rw [stageScanAux_append]
  simp only [stageScanAux, if_pos hid]
  rw [stageScanAux_no_match sid ys _ _ hys]
  simp

theorem stageScan_lt_length {σ ε : Type} (sid : Ulid)
    (stages : List (SimpleSystemStage σ ε)) (j : Nat)
    (h : stageScan sid stages = some j) : j < stages.length := by
  rcases stageScanAux_bound sid stages 0 none j h with h2 | h2
  · cases h2
  · omega

theorem modifyIdx_append_middle {α : Type} (f : α → α) (xs : List α) :
    ∀ (y : α) (zs : List α), modifyIdx (xs ++ y :: zs) xs.length f = xs ++ f y :: zs := by
  induction xs with
  | nil => intro y zs; rfl
  | cons x rest ih =>
    intro y zs
    simp only [List.cons_append, List.length_cons, modifyIdx, List.append_eq]
    rw [ih]

theorem modifyIdx_get_eq {α : Type} (f : α → α) :
    ∀ (l : List α) (i : Nat) (a : α), l.get? i = some a →
      (modifyIdx l i f).get? i = some (f a) := by
  intro l
  induction l with
  | nil => intro i a h; cases h
  | cons x rest ih =>
    intro i a h
    cases i with
    | zero =>
      cases h
      rfl
    | succ n =>
      simp only [List.get?_cons_succ] at h
      simp only [modifyIdx, List.get?_cons_succ]
      exact ih n a h

theorem modifyIdx_get_ne {α : Type} (f : α → α) :
    ∀ (l : List α) (i j : Nat), j ≠ i →
      (modifyIdx l i f).get? j = l.get? j := by
  intro l
  induction l with
  | nil => intro i j _; cases i <;> rfl
  | cons x rest ih =>
    intro i j hne
    cases i with
    | zero =>
      cases j with
      | zero => exact absurd rfl hne
      | succ m => rfl
    | succ n =>
      cases j with
      | zero => rfl
      | succ m =>
        simp only [modifyIdx, List.get?_cons_succ]
        exact ih n m fun h => hne (congrArg Nat.succ h)

theorem modifyIdx_length {α : Type} (f : α → α) :
    ∀ (l : List α) (i : Nat), (modifyIdx l i f).length = l.length := by
  intro l
  induction l with
  | nil => intro i; rfl
  | cons x rest ih =>
    intro i
    cases i with
    | zero => rfl
    | succ n =>
      simp only [modifyIdx, List.length_cons]
      rw [ih]

theorem modifyIdx_map_fix {α β : Type} (f : α → α) (g : α → β)
    (hfix : ∀ a, g (f a) = g a) :
    ∀ (l : List α) (i : Nat), (modifyIdx l i f).map g = l.map g := by
  intro l
  induction l with
  | nil => intro i; rfl
  | cons x rest ih =>
    intro i
    cases i with
    | zero => simp only [modifyIdx, List.map_cons, hfix]
    | succ n =>
      simp only [modifyIdx, List.map_cons]
      rw [ih]

/-- Shared helper: the abort branch of `add_system_to_stage`, with the
collection state at the abort point. -/
theorem add_system_to_stage_no_match {σ ε : Type} (ss : SystemStages σ ε)
    (label : StageLabel) (sys : System σ ε)
    (h : ∀ st ∈ ss.stages, st.id ≠ label.id) :
    ss.add_system_to_stage label sys
      = Except.error (missingStageMsg label.name label.id, ss) := by
  unfold SystemStages.add_system_to_stage
  rw [stageScan_none label.id ss.stages h]

/-! ### Claim theorems -/

/-- Claim C2: if the first failing system of a `run` call sits in some stage
after a succeeding prefix of systems, preceded by succeeding stages, then
`run` returns exactly that system's error, and the resulting state does not
depend on the remaining systems of the stage nor on the later stages (they
are never invoked). -/
theorem run_fail_fast {σ ε : Type} (ss : SystemStages σ ε)
    (stpre stpost : List (SimpleSystemStage σ ε)) (st : SimpleSystemStage σ ε)
    (a b : List (System σ ε)) (f : System σ ε)
    (s s1 s2 s3 : σ) (e : ε)
    (hstages : ss.stages = stpre ++ st :: stpost)
    (hpre : runStages stpre s = (s1, Except.ok ()))
    (hsys : st.systems = a ++ f :: b)
    (ha : runSystems a s1 = (s2, Except.ok ()))
    (hf : f.run s2 = (s3, Except.error e)) :
    ss.run s = (s3, Except.error e) := by
  unfold SystemStages.run
  rw [hstages, runStages_append_ok stpre (st :: stpost) s s1 hpre]
  have hstrun : st.run s1 = (s3, Except.error e) := by
    unfold SimpleSystemStage.run
    rw [hsys, runSystems_append_ok a (f :: b) s1 s2 ha]
    simp only [runSystems, hf]
  simp only [runStages, hstrun]

/-- Witness for C2: stage `A` holds a succeeding probe (tag 10) and a failing
probe (tag 11, error `"boom"`); stage `B` holds probe 12.  The trace shows
only 10 and 11 ran, and the error is returned unchanged. -/
theorem run_fail_fast_witness :
    (SystemStages.mk [⟨1, "A", [probe String 10, failProbe 11 "boom"]⟩,
        ⟨2, "B", [probe String 12]⟩]).run []
      = ([10, 11], Except.error "boom") :=
  run_fail_fast _ [] [⟨2, "B", [probe String 12]⟩]
    ⟨1, "A", [probe String 10, failProbe 11 "boom"]⟩
    [probe String 10] [] (failProbe 11 "boom") [] [] [10] [10, 11] "boom"
    rfl rfl rfl rfl rfl

/-- Claim C3: `with_core_stages` builds exactly five empty stages, in the
order First, PreUpdate, Update, PostUpdate, Last, with the literal phase
names and the five fixed pairwise-distinct non-zero 128-bit id constants. -/
theorem with_core_stages_layout (σ ε : Type) :
    (SystemStages.with_core_stages σ ε).stages.map
        (fun st => (st.name, st.id, st.systems.length))
      = [("First", 2021715391084198804812356024998495966, 0),
         ("PreUpdate", 2021715401330719559452824437611089988, 0),
         ("Update", 2021715410160177201728645950400543948, 0),
         ("PostUpdate", 2021715423103233646561968734173322317, 0),
         ("Last", 2021715433398666914977687392909851554, 0)]
    ∧ ((SystemStages.with_core_stages σ ε).stages.map fun st => st.id).Nodup
    ∧ ∀ i ∈ (SystemStages.with_core_stages σ ε).stages.map fun st => st.id,
        i ≠ 0 ∧ i < 2 ^ 128 := by
  have hm : ((SystemStages.with_core_stages σ ε).stages.map fun st => st.id)
      = [2021715391084198804812356024998495966,
         2021715401330719559452824437611089988,
         2021715410160177201728645950400543948,
         2021715423103233646561968734173322317,
         2021715433398666914977687392909851554] := rfl
  refine ⟨rfl, ?_, ?_⟩
  · rw [hm]
    decide
  · rw [hm]
    decide

/-- Claim C10: on a collection whose every stage has an empty system list
(in particular, an empty collection), `run` returns `Ok` with the state
untouched, and `initialize_systems` touches nothing. -/
theorem empty_systems_run_ok {σ ε : Type} (ss : SystemStages σ ε) (s : σ)
    (h : ∀ st ∈ ss.stages, st.systems = []) :
    ss.run s = (s, Except.ok ()) ∧ ss.init_systems s = s :=
  ⟨runStages_all_empty ss.stages s h, initFold_all_empty ss.stages s h⟩

/-- Witness for C10: the empty collection, and a collection with one
system-less stage. -/
theorem empty_systems_run_ok_witness :
    ((SystemStages.mk ([] : List (SimpleSystemStage Nat Unit))).run 7
        = (7, Except.ok ())
      ∧ (SystemStages.mk ([] : List (SimpleSystemStage Nat Unit))).init_systems 7 = 7)
    ∧ ((SystemStages.mk [(⟨1, "E", []⟩ : SimpleSystemStage Nat Unit)]).run 7
        = (7, Except.ok ())
      ∧ (SystemStages.mk [(⟨1, "E", []⟩ : SimpleSystemStage Nat Unit)]).init_systems 7
        = 7) :=
  ⟨empty_systems_run_ok _ 7 (by intro st h; exact absurd h (List.not_mem_nil st)),
   empty_systems_run_ok _ 7
     (by intro st h; rw [List.mem_singleton] at h; subst h; rfl)⟩

/-! ### Trace lemmas for instrumented systems -/

theorem probes_run (ε : Type) :
    ∀ (tags : List Nat) (s : List Nat),
      runSystems (tags.map (probe ε)) s = (s ++ tags, Except.ok ()) := by
  intro tags
  induction tags with
  | nil => intro s; simp [runSystems]
  | cons t rest ih =>
    intro s
    simp only [List.map_cons, runSystems, probe]
    rw [ih (s ++ [t])]
    simp

theorem probes_init (ε : Type) :
    ∀ (tags : List Nat) (s : List Nat),
      (tags.map (probe ε)).foldl (fun s sys => sys.init s) s = s ++ tags := by
  intro tags
  induction tags with
  | nil => intro s; simp
  | cons t rest ih =>
    intro s
    simp only [List.map_cons, List.foldl_cons, probe]
    rw [ih (s ++ [t])]
    simp

theorem foldl_add_system {σ ε : Type} :
    ∀ (syss : List (System σ ε)) (st : SimpleSystemStage σ ε),
      (syss.foldl (fun st sys => st.add_system sys) st).systems
        = st.systems ++ syss := by
  intro syss
  induction syss with
  | nil => intro st; simp
  | cons sys rest ih =>
    intro st
    simp only [List.foldl_cons]
    rw [ih]
    simp [SimpleSystemStage.add_system]

theorem addAllToStage_single {σ ε : Type} (sid : Ulid) (nm nm2 : String) :
    ∀ (syss : List (System σ ε)) (l : List (System σ ε)),
      addAllToStage (SystemStages.mk [⟨sid, nm, l⟩]) ⟨nm2, sid⟩ syss
        = SystemStages.mk [⟨sid, nm, l ++ syss⟩] := by
  intro syss
  induction syss with
  | nil => intro l; simp [addAllToStage]
  | cons sys rest ih =>
    intro l
    have hstep : (SystemStages.mk [(⟨sid, nm, l⟩ : SimpleSystemStage σ ε)]).add_system_to_stage
        ⟨nm2, sid⟩ sys = Except.ok (SystemStages.mk [⟨sid, nm, l ++ [sys]⟩]) := by
      unfold SystemStages.add_system_to_stage
      have hscan : stageScan (StageLabel.mk nm2 sid).id
          [(⟨sid, nm, l⟩ : SimpleSystemStage σ ε)] = some 0 := by
        simp [stageScan, stageScanAux]
      rw [hscan]
      rfl
    have hun : addAllToStage (SystemStages.mk [(⟨sid, nm, l⟩ : SimpleSystemStage σ ε)])
        ⟨nm2, sid⟩ (sys :: rest)
        = addAllToStage (SystemStages.mk [⟨sid, nm, l ++ [sys]⟩]) ⟨nm2, sid⟩ rest := by
      unfold addAllToStage
      simp only [List.foldl_cons]
      rw [hstep]
    rw [hun, ih (l ++ [sys])]
    simp

theorem runSystems_all_ok {σ ε : Type} (l : List (System σ ε)) :
    ∀ s : σ, (∀ sys ∈ l, ∀ s2, (sys.run s2).2 = Except.ok ()) →
      runSystems l s = (l.foldl (fun s sys => (sys.run s).1) s, Except.ok ()) := by
  induction l with
  | nil => intro s _; rfl
  | cons sys rest ih =>
    intro s h
    have hok : (sys.run s).2 = Except.ok () := h sys (List.mem_cons_self sys rest) s
    simp only [runSystems, List.foldl_cons]
    rcases hr : sys.run s with ⟨s1, r⟩
    rw [hr] at hok
    have hr2 : r = Except.ok () := hok
    subst hr2
    exact ih s1 fun sys2 h2 s2 => h sys2 (List.mem_cons_of_mem sys h2) s2

theorem runStages_all_ok {σ ε : Type} (l : List (SimpleSystemStage σ ε)) :
    ∀ s : σ, (∀ st ∈ l, ∀ sys ∈ st.systems, ∀ s2, (sys.run s2).2 = Except.ok ()) →
      runStages l s
        = (l.foldl (fun s st => st.systems.foldl (fun s sys => (sys.run s).1) s) s,
           Except.ok ()) := by
  induction l with
  | nil => intro s _; rfl
  | cons st rest ih =>
    intro s h
    have hrun : st.run s
        = (st.systems.foldl (fun s sys => (sys.run s).1) s, Except.ok ()) :=
      runSystems_all_ok st.systems s
        fun sys h2 s2 => h st (List.mem_cons_self st rest) sys h2 s2
    simp only [runStages, List.foldl_cons, hrun]
    exact ih _ fun st2 h2 sys h3 s2 => h st2 (List.mem_cons_of_mem st h2) sys h3 s2

/-- Claim C1 counterexample: with two stages both carrying id 5, registering
through a label with id 5 appends the system to the second (last) matching
stage, not the first — the first matching stage stays empty, refuting
first-match-wins at this input. -/
theorem dup_id_append_skips_first_match :
    ((SystemStages.mk [⟨5, "A", []⟩, ⟨5, "B", []⟩]).add_system_to_stage
        ⟨"L", 5⟩ (probe Unit 0)).toOption.map
        (fun ss => ss.stages.map fun st => (st.name, st.systems.length))
      = some [("A", 0), ("B", 1)]
    ∧ ((SystemStages.mk [⟨5, "A", []⟩, ⟨5, "B", []⟩]).add_system_to_stage
        ⟨"L", 5⟩ (probe Unit 0)).toOption.map
        (fun ss => ss.stages.map fun st => (st.name, st.systems.length))
      ≠ some [("A", 1), ("B", 0)] :=
  ⟨rfl, fun h =>
    absurd (h : some [("A", (0 : Nat)), ("B", 1)] = some [("A", 1), ("B", 0)])
      (by decide)⟩

/-- Claim C1 (amended): the scan overwrites its accumulator on every match,
so when several stages share the label's id the system is appended to the
last matching stage; the stage list is otherwise unchanged. -/
theorem add_system_to_stage_last_match_wins {σ ε : Type} (ss : SystemStages σ ε)
    (label : StageLabel) (sys : System σ ε)
    (stpre stpost : List (SimpleSystemStage σ ε)) (st : SimpleSystemStage σ ε)
    (hsplit : ss.stages = stpre ++ st :: stpost)
    (hmatch : st.id = label.id)
    (hlast : ∀ st2 ∈ stpost, st2.id ≠ label.id) :
    ss.add_system_to_stage label sys
      = Except.ok ⟨stpre ++ st.add_system sys :: stpost⟩ := by
  unfold SystemStages.add_system_to_stage
  rw [hsplit, stageScan_last_match label.id stpre stpost st hmatch hlast]
  show Except.ok (SystemStages.mk
      (modifyIdx (stpre ++ st :: stpost) stpre.length fun st => st.add_system sys))
    = Except.ok (SystemStages.mk (stpre ++ st.add_system sys :: stpost))
  rw [modifyIdx_append_middle]

/-- Witness for the amended C1: the duplicate-id collection of the
counterexample, where the second stage is the last match. -/
theorem add_system_to_stage_last_match_wins_witness :
    (SystemStages.mk [⟨5, "A", []⟩, ⟨5, "B", []⟩]).add_system_to_stage
        ⟨"L", 5⟩ (probe Unit 0)
      = Except.ok (SystemStages.mk [⟨5, "A", []⟩, ⟨5, "B", [probe Unit 0]⟩]) :=
  add_system_to_stage_last_match_wins _ ⟨"L", 5⟩ (probe Unit 0)
    [⟨5, "A", []⟩] [] ⟨5, "B", []⟩ rfl rfl
    (fun st2 h2 => absurd h2 (List.not_mem_nil st2))

/-- Claim C4: with a label matching no stage, `add_system_to_stage` aborts
with a diagnostic containing both the label's name and its id; with a label
matching some stage it returns the (updated) collection for chaining. -/
theorem add_system_to_stage_abort_or_chain {σ ε : Type} (ss : SystemStages σ ε)
    (label : StageLabel) (sys : System σ ε) :
    ((∀ st ∈ ss.stages, st.id ≠ label.id) →
      ∃ x y u v,
        ss.add_system_to_stage label sys = Except.error (x ++ label.name ++ y, ss)
        ∧ x ++ label.name ++ y = u ++ toString label.id ++ v)
    ∧ ((∃ st ∈ ss.stages, st.id = label.id) →
      ∃ ss2, ss.add_system_to_stage label sys = Except.ok ss2) := by
  constructor
  · intro h
    refine ⟨"Stage with label `",
      "` ( " ++ toString label.id ++ " ) doesn\x27t exist.",
      "Stage with label `" ++ label.name ++ "` ( ",
      " ) doesn\x27t exist.", ?_, ?_⟩
    · rw [add_system_to_stage_no_match ss label sys h]
      unfold missingStageMsg
      simp only [String.append_assoc]
    · simp only [String.append_assoc]
  · rintro ⟨st, hmem, hid⟩
    rcases stageScan_of_mem label.id ss.stages ⟨st, hmem, hid⟩ with ⟨j, hj⟩
    refine ⟨⟨modifyIdx ss.stages j fun st => st.add_system sys⟩, ?_⟩
    unfold SystemStages.add_system_to_stage
    rw [hj]

/-- Witness for C4: a one-stage collection with id 1; a label with id 9
aborts with a diagnostic containing `"L"` and `"9"`, a label with id 1
returns a collection. -/
theorem add_system_to_stage_abort_or_chain_witness :
    (∃ x y u v,
      (SystemStages.mk [(⟨1, "A", []⟩ : SimpleSystemStage (List Nat) Unit)]).add_system_to_stage
          ⟨"L", 9⟩ (probe Unit 0)
        = Except.error (x ++ "L" ++ y, SystemStages.mk [⟨1, "A", []⟩])
      ∧ x ++ "L" ++ y = u ++ toString (9 : Ulid) ++ v)
    ∧ ∃ ss2,
      (SystemStages.mk [(⟨1, "A", []⟩ : SimpleSystemStage (List Nat) Unit)]).add_system_to_stage
          ⟨"B", 1⟩ (probe Unit 0)
        = Except.ok ss2 :=
  ⟨(add_system_to_stage_abort_or_chain _ ⟨"L", 9⟩ (probe Unit 0)).1
      (fun st h => by
        rw [List.mem_singleton] at h
        subst h
        exact (by decide : ¬ (1 = 9))),
   (add_system_to_stage_abort_or_chain _ ⟨"B", 1⟩ (probe Unit 0)).2
      ⟨⟨1, "A", []⟩, List.mem_singleton.mpr rfl, rfl⟩⟩

/-- Claim C7: a successful `add_system_to_stage` keeps the stage count and
the ordered (id, name) sequence unchanged, and alters exactly one stage,
whose system list gains the new system at the end; every other stage is
untouched (`initialize_systems` and `run` are state-only in this embedding,
mirroring that the source loops never touch the stage vector). -/
theorem ops_preserve_stage_structure {σ ε : Type} (ss : SystemStages σ ε)
    (label : StageLabel) (sys : System σ ε) (ss2 : SystemStages σ ε)
    (h : ss.add_system_to_stage label sys = Except.ok ss2) :
    ss2.stages.length = ss.stages.length
    ∧ ss2.stages.map (fun st => (st.id, st.name))
        = ss.stages.map (fun st => (st.id, st.name))
    ∧ ∃ i st, ss.stages.get? i = some st
        ∧ ss2.stages.get? i = some (st.add_system sys)
        ∧ ∀ j, j ≠ i → ss2.stages.get? j = ss.stages.get? j := by
  unfold SystemStages.add_system_to_stage at h
  cases hscan : stageScan label.id ss.stages with
  | none =>
    rw [hscan] at h
    exact absurd (h : Except.error (missingStageMsg label.name label.id, ss)
      = Except.ok ss2) (fun h2 => by cases h2)
  | some i =>
    rw [hscan] at h
    have h3 : Except.ok (ε := String × SystemStages σ ε)
        (SystemStages.mk (modifyIdx ss.stages i fun st => st.add_system sys))
        = Except.ok ss2 := h
    injection h3 with h4
    subst h4
    have hlt : i < ss.stages.length := stageScan_lt_length label.id ss.stages i hscan
    have hst : ss.stages.get? i = some (ss.stages.get ⟨i, hlt⟩) := List.get?_eq_get hlt
    exact ⟨modifyIdx_length (fun st => st.add_system sys) ss.stages i,
      modifyIdx_map_fix (fun st => st.add_system sys) (fun st => (st.id, st.name))
        (fun a => rfl) ss.stages i,
      i, ss.stages.get ⟨i, hlt⟩, hst,
      modifyIdx_get_eq (fun st => st.add_system sys) ss.stages i _ hst,
      fun j hj => modifyIdx_get_ne (fun st => st.add_system sys) ss.stages i j hj⟩

/-- Witness for C7: appending probe 3 through label id 2 into the two-stage
collection `[A(id 1), B(id 2)]` keeps count and (id, name) order, touches
only index 1, and appends at its end. -/
theorem ops_preserve_stage_structure_witness :
    (SystemStages.mk [(⟨1, "A", []⟩ : SimpleSystemStage (List Nat) Unit),
        ⟨2, "B", [probe Unit 3]⟩]).stages.length
      = (SystemStages.mk [(⟨1, "A", []⟩ : SimpleSystemStage (List Nat) Unit),
        ⟨2, "B", []⟩]).stages.length
    ∧ (SystemStages.mk [(⟨1, "A", []⟩ : SimpleSystemStage (List Nat) Unit),
        ⟨2, "B", [probe Unit 3]⟩]).stages.map (fun st => (st.id, st.name))
      = (SystemStages.mk [(⟨1, "A", []⟩ : SimpleSystemStage (List Nat) Unit),
        ⟨2, "B", []⟩]).stages.map (fun st => (st.id, st.name))
    ∧ ∃ i st,
        (SystemStages.mk [(⟨1, "A", []⟩ : SimpleSystemStage (List Nat) Unit),
          ⟨2, "B", []⟩]).stages.get? i = some st
        ∧ (SystemStages.mk [(⟨1, "A", []⟩ : SimpleSystemStage (List Nat) Unit),
          ⟨2, "B", [probe Unit 3]⟩]).stages.get? i
            = some (st.add_system (probe Unit 3))
        ∧ ∀ j, j ≠ i →
            (SystemStages.mk [(⟨1, "A", []⟩ : SimpleSystemStage (List Nat) Unit),
              ⟨2, "B", [probe Unit 3]⟩]).stages.get? j
              = (SystemStages.mk [(⟨1, "A", []⟩ : SimpleSystemStage (List Nat) Unit),
                ⟨2, "B", []⟩]).stages.get? j :=
  ops_preserve_stage_structure _ ⟨"B", 2⟩ (probe Unit 3) _ rfl

/-- Claim C9: when no stage id matches the label, the abort happens with the
collection exactly as it was — the scan writes nothing and the panic fires
before any append. -/
theorem abort_leaves_stages_unmodified {σ ε : Type} (ss : SystemStages σ ε)
    (label : StageLabel) (sys : System σ ε)
    (h : ∀ st ∈ ss.stages, st.id ≠ label.id) :
    ∃ msg, ss.add_system_to_stage label sys = Except.error (msg, ss) :=
  ⟨missingStageMsg label.name label.id, add_system_to_stage_no_match ss label sys h⟩

/-- Witness for C9: a one-stage collection (id 1) and a label with id 9. -/
theorem abort_leaves_stages_unmodified_witness :
    ∃ msg,
      (SystemStages.mk [(⟨1, "A", []⟩ : SimpleSystemStage (List Nat) Unit)]).add_system_to_stage
          ⟨"L", 9⟩ (probe Unit 0)
        = Except.error (msg, SystemStages.mk [⟨1, "A", []⟩]) :=
  abort_leaves_stages_unmodified _ ⟨"L", 9⟩ (probe Unit 0)
    (fun st h => by
      rw [List.mem_singleton] at h
      subst h
      exact (by decide : ¬ (1 = 9)))

/-- Claim C5: systems registered one by one into a stage (directly via
`add_system`, or through chained `add_system_to_stage` calls on a collection
holding that stage) end up in exactly insertion order, and `run` invokes them
in that order — the trace equals the tag sequence, duplicates included, with
no reordering. -/
theorem stage_insertion_order (ε : Type) (sid : Ulid) (nm : String)
    (tags : List Nat) (s : List Nat) :
    ((tags.map (probe ε)).foldl (fun st sys => st.add_system sys)
        (⟨sid, nm, []⟩ : SimpleSystemStage (List Nat) ε)).systems
      = tags.map (probe ε)
    ∧ ((tags.map (probe ε)).foldl (fun st sys => st.add_system sys)
        (⟨sid, nm, []⟩ : SimpleSystemStage (List Nat) ε)).run s
      = (s ++ tags, Except.ok ())
    ∧ (addAllToStage (SystemStages.mk [⟨sid, nm, []⟩]) ⟨nm, sid⟩
        (tags.map (probe ε))).run s
      = (s ++ tags, Except.ok ()) := by
  have hsys : ((tags.map (probe ε)).foldl (fun st sys => st.add_system sys)
      (⟨sid, nm, []⟩ : SimpleSystemStage (List Nat) ε)).systems
      = tags.map (probe ε) := by
    rw [foldl_add_system]
    simp
  refine ⟨hsys, ?_, ?_⟩
  · unfold SimpleSystemStage.run
    rw [hsys]
    exact probes_run ε tags s
  · rw [addAllToStage_single sid nm nm (tags.map (probe ε)) []]
    unfold SystemStages.run
    have hrun : (⟨sid, nm, [] ++ tags.map (probe ε)⟩ :
        SimpleSystemStage (List Nat) ε).run s = (s ++ tags, Except.ok ()) := by
      unfold SimpleSystemStage.run
      simp only [List.nil_append]
      exact probes_run ε tags s
    simp only [runStages, hrun]

/-- Claim C6: one `initialize_systems` call reaches the initialize hook of
every system exactly once, stages in order and systems in insertion order —
the trace equals the concatenation of all stages' tag lists, whatever the
number of stages or of systems per stage (empty stages included). -/
theorem init_systems_each_once (ε : Type) (specs : List (Ulid × String × List Nat))
    (s : List Nat) :
    (SystemStages.mk (specs.map fun p =>
        (⟨p.1, p.2.1, p.2.2.map (probe ε)⟩ : SimpleSystemStage (List Nat) ε))).init_systems s
      = s ++ (specs.map fun p => p.2.2).flatten := by
  unfold SystemStages.init_systems
  induction specs generalizing s with
  | nil => simp
  | cons p rest ih =>
    simp only [List.map_cons, List.foldl_cons, List.flatten_cons]
    have hinit : (⟨p.1, p.2.1, p.2.2.map (probe ε)⟩ :
        SimpleSystemStage (List Nat) ε).init s = s ++ p.2.2 := by
      unfold SimpleSystemStage.init
      exact probes_init ε p.2.2 s
    rw [hinit, ih (s ++ p.2.2)]
    simp

/-- Claim C8: when every system of the collection always succeeds, each `run`
call returns `Ok` after passing the state through every system's transition,
in stage order and insertion order (`allSystemsFold`), and a second `run`
performs the full traversal again on the result — nothing is cached and the
stage and system lists are the same on both calls. -/
theorem run_no_failure_full_traversal {σ ε : Type} (ss : SystemStages σ ε)
    (h : ∀ st ∈ ss.stages, ∀ sys ∈ st.systems, ∀ s2, (sys.run s2).2 = Except.ok ())
    (s : σ) :
    ss.run s = (allSystemsFold ss s, Except.ok ())
    ∧ ss.run (ss.run s).1
      = (allSystemsFold ss (allSystemsFold ss s), Except.ok ()) := by
  have h1 : ss.run s = (allSystemsFold ss s, Except.ok ()) :=
    runStages_all_ok ss.stages s h
  refine ⟨h1, ?_⟩
  rw [h1]
  exact runStages_all_ok ss.stages (allSystemsFold ss s) h

/-- Witness for C8: three stages holding probes 1 and 2, no system, and
probe 3; both run calls replay the full trace. -/
theorem run_no_failure_full_traversal_witness :
    (SystemStages.mk [(⟨1, "A", [probe Unit 1, probe Unit 2]⟩ :
        SimpleSystemStage (List Nat) Unit), ⟨2, "B", []⟩, ⟨3, "C", [probe Unit 3]⟩]).run []
      = (allSystemsFold (SystemStages.mk [(⟨1, "A", [probe Unit 1, probe Unit 2]⟩ :
          SimpleSystemStage (List Nat) Unit), ⟨2, "B", []⟩, ⟨3, "C", [probe Unit 3]⟩]) [],
         Except.ok ())
    ∧ (SystemStages.mk [(⟨1, "A", [probe Unit 1, probe Unit 2]⟩ :
        SimpleSystemStage (List Nat) Unit), ⟨2, "B", []⟩, ⟨3, "C", [probe Unit 3]⟩]).run
        ((SystemStages.mk [(⟨1, "A", [probe Unit 1, probe Unit 2]⟩ :
          SimpleSystemStage (List Nat) Unit), ⟨2, "B", []⟩, ⟨3, "C", [probe Unit 3]⟩]).run []).1
      = (allSystemsFold (SystemStages.mk [(⟨1, "A", [probe Unit 1, probe Unit 2]⟩ :
          SimpleSystemStage (List Nat) Unit), ⟨2, "B", []⟩, ⟨3, "C", [probe Unit 3]⟩])
          (allSystemsFold (SystemStages.mk [(⟨1, "A", [probe Unit 1, probe Unit 2]⟩ :
            SimpleSystemStage (List Nat) Unit), ⟨2, "B", []⟩, ⟨3, "C", [probe Unit 3]⟩]) []),
         Except.ok ()) :=
  run_no_failure_full_traversal _
    (by
      intro st hst sys hsys s2
      simp only [List.mem_cons, List.not_mem_nil, or_false] at hst
      rcases hst with rfl | rfl | rfl
      · simp only [List.mem_cons, List.not_mem_nil, or_false] at hsys
        rcases hsys with rfl | rfl <;> rfl
      · exact absurd hsys (List.not_mem_nil sys)
      · simp only [List.mem_singleton] at hsys
        subst hsys
        rfl)
    []

end Bones
